import Mathlib

/-!
Verification of the analog web-log pipeline (apparebit/analog).

This file shallowly embeds the parts of the code base that the checked
properties are about:

* `src/analog/month_in_year.py` — the `MonthInYear` value type and its
  calendar arithmetic;
* `src/analog/atomic_update.py` — the crash-safe whole-file writer;
* `src/analog/label.py` — the `ContentType` derivation;
* `src/analog/schema.py` — the schema table and `validate`;
* `src/analog/data_manager.py` — `Coverage` and the ingestion and
  combination orchestration of `DataManager`;
* `src/analog/parser.py` — the access-log line grammar and the
  user-agent enrichment pass.

Machine integers are modelled as `Int`/`Nat` (Python integers are
unbounded, so no wrap-around is involved); fallible code returns
`Option`/`Except`; file systems are modelled as explicit association
lists from names to contents.
-/

/- ====================================================================
   src/analog/month_in_year.py
   ==================================================================== -/

/-- A specific month in a specific year (`MonthInYear`, a named tuple of
`year` and `month`).  Python integers are unbounded, hence `Int`. -/
structure MonthInYear where
  year : Int
  month : Int
deriving DecidableEq, Repr

namespace MonthInYear

/-- `calendar.isleap`, as used by `calendar.monthrange`. -/
def isLeapYear (y : Int) : Bool :=
  y % 4 == 0 && (y % 100 != 0 || y % 400 == 0)

/-- `MonthInYear.days`: the number of days of this month, per
`calendar.monthrange` (which consults a month-length table plus the leap
rule for February).  Faithful for `1 ≤ month ≤ 12`; outside that range
`monthrange` raises, which no claim exercises. -/
def days (m : MonthInYear) : Int :=
  if m.month = 2 then (if isLeapYear m.year then 29 else 28)
  else if m.month = 4 ∨ m.month = 6 ∨ m.month = 9 ∨ m.month = 11 then 30
  else 31

/-- The named tuple's lexicographic `<` on `(year, month)`. -/
def ltb (a b : MonthInYear) : Bool :=
  decide (a.year < b.year ∨ (a.year = b.year ∧ a.month < b.month))

/-- The named tuple's lexicographic `≤` on `(year, month)`. -/
def leb (a b : MonthInYear) : Bool :=
  ltb a b || decide (a = b)

/-- `MonthInYear.__add__` for an `int` argument.  Python's `//` and `%`
with the positive divisor `12` are floor division and floor modulus,
which coincide with Lean's Euclidean `/` and `%` on `Int` because the
divisor is positive. -/
def add (m : MonthInYear) (n : Int) : MonthInYear :=
  let year := m.year + n / 12
  let month := m.month + n % 12
  if month > 12 then ⟨year + 1, month - 12⟩ else ⟨year, month⟩

/-- `MonthInYear.__sub__` for an `int` argument. -/
def sub (m : MonthInYear) (n : Int) : MonthInYear :=
  let year := m.year - n / 12
  let month := m.month - n % 12
  if month < 1 then ⟨year - 1, month + 12⟩ else ⟨year, month⟩

/-- `MonthInYear.__sub__` for a month-in-yearly argument: the signed
number of months between the two values. -/
def diff (a b : MonthInYear) : Int :=
  (a.year - b.year) * 12 + (a.month - b.month)

/-- `MonthInYear.next`. -/
def next (m : MonthInYear) : MonthInYear :=
  let month := m.month + 1
  if month = 13 then ⟨m.year + 1, 1⟩ else ⟨m.year, month⟩

/-- The month constraint of `MonthInYear.validate` (`1 <= month <= 12`).
The year bound `2000 <= year <= 2100` of `validate` is irrelevant to the
arithmetic claims. -/
def validMonth (m : MonthInYear) : Prop :=
  1 ≤ m.month ∧ m.month ≤ 12

instance (m : MonthInYear) : Decidable m.validMonth := by
  unfold validMonth; infer_instance

/-- Linearization of a month-in-year onto the integer month axis. -/
def index (m : MonthInYear) : Int :=
  12 * m.year + m.month

theorem index_add (m : MonthInYear) (n : Int) : (m.add n).index = m.index + n := by
  obtain ⟨y, mo⟩ := m
  simp only [add, index]
  split <;> simp <;> omega

theorem validMonth_add (m : MonthInYear) (n : Int) (h : m.validMonth) :
    (m.add n).validMonth := by
  obtain ⟨y, mo⟩ := m
  simp only [add, validMonth] at *
  split <;> simp <;> omega

theorem index_inj (a b : MonthInYear) (ha : a.validMonth) (hb : b.validMonth)
    (h : a.index = b.index) : a = b := by
  obtain ⟨ay, am⟩ := a
  obtain ⟨by_, bm⟩ := b
  simp only [index, validMonth] at *
  have : ay = by_ ∧ am = bm := by omega
  simp [this.1, this.2]

theorem diff_eq_index_sub (a b : MonthInYear) : a.diff b = a.index - b.index := by
  simp only [diff, index]; ring

theorem leb_iff_index (a b : MonthInYear) (ha : a.validMonth) (hb : b.validMonth) :
    a.leb b = true ↔ a.index ≤ b.index := by
  obtain ⟨ay, am⟩ := a
  obtain ⟨by_, bm⟩ := b
  simp only [leb, ltb, index, validMonth, mk.injEq] at *
  simp only [Bool.or_eq_true, decide_eq_true_eq]
  omega

theorem ltb_iff_index (a b : MonthInYear) (ha : a.validMonth) (hb : b.validMonth) :
    a.ltb b = true ↔ a.index < b.index := by
  obtain ⟨ay, am⟩ := a
  obtain ⟨by_, bm⟩ := b
  simp only [ltb, index, validMonth] at *
  simp only [decide_eq_true_eq]
  omega

theorem next_eq_add_one (m : MonthInYear) (h : m.validMonth) : m.next = m.add 1 := by
  obtain ⟨y, mo⟩ := m
  simp only [next, add, validMonth] at *
  split <;> split <;> simp only [mk.injEq] <;> omega

end MonthInYear

/-- C8: month arithmetic on `MonthInYear` is invertible: for every
month-in-year `m` (with a valid month component, `1 ≤ month ≤ 12`) and
every integer `n` — positive, zero, or negative — `(m + n) - n = m`, and
`m + n` lies exactly `n` calendar months after `m` (witnessed by the
code's own month-difference operation `(m + n) - m = n`). -/
theorem month_arithmetic_invertible (m : MonthInYear) (n : Int)
    (h1 : 1 ≤ m.month) (h2 : m.month ≤ 12) :
    (m.add n).sub n = m ∧ (m.add n).diff m = n := by
  obtain ⟨y, mo⟩ := m
  simp only at h1 h2
  constructor
  · simp only [MonthInYear.add, MonthInYear.sub]
    split_ifs <;> simp_all [MonthInYear.mk.injEq] <;> omega
  · simp only [MonthInYear.add, MonthInYear.diff]
    split_ifs <;> simp_all <;> omega

/-- Witness for C8 at `m = 2020-05`, `n = -7`. -/
theorem month_arithmetic_invertible_witness :
    ((MonthInYear.mk 2020 5).add (-7)).sub (-7) = MonthInYear.mk 2020 5 ∧
      ((MonthInYear.mk 2020 5).add (-7)).diff (MonthInYear.mk 2020 5) = -7 :=
  month_arithmetic_invertible (MonthInYear.mk 2020 5) (-7) (by norm_num) (by norm_num)

/- ====================================================================
   src/analog/atomic_update.py
   ==================================================================== -/

/-- State of one `atomic_update` instance together with the two files it
touches.  `target` is the content of the target path (`none` if the file
is absent), `temp` the content of the temporary sibling created by
`mkstemp` (`none` once it has been renamed away), and `isOpen` records
whether `self._file` is still set.  Contents written through the file
object are modelled as already flushed into the temporary file (the code
closes — and thereby flushes — the file object before any rename, and
the aborting path of the repository's own test flushes explicitly). -/
structure AtomicUpdate where
  target : Option String
  temp : Option String
  isOpen : Bool
deriving DecidableEq, Repr

namespace AtomicUpdate

/-- `atomic_update.__init__`: `mkstemp` creates an empty temporary
sibling of the target and the instance holds an open file onto it. -/
def init (target0 : Option String) : AtomicUpdate :=
  ⟨target0, some "", true⟩

/-- A `file.write(s)` through the instance: appends to the temporary
file.  Only ever invoked while the file is open (after `close`,
`self._file` is `None` and Python would raise; no run modelled in this
file writes after closing). -/
def write (st : AtomicUpdate) (s : String) : AtomicUpdate :=
  if st.isOpen then { st with temp := some (st.temp.getD "" ++ s) } else st

/-- `atomic_update.close`: a no-op if `self._file` is already `None`;
otherwise clears `self._file`, closes the file, and — only when
committing — performs the single `os.replace(self._tmp, self._target)`,
which moves the temporary file over the target.  On abort
(`commit=False`) the temporary file is left in place: the code contains
no `unlink`. -/
def close (st : AtomicUpdate) (commit : Bool) : AtomicUpdate :=
  if st.isOpen = false then st
  else if commit then ⟨st.temp, none, false⟩
  else { st with isOpen := false }

/-- `atomic_update.__exit__`: commits exactly when the body raised no
exception (`commit = exc_value is None`). -/
def exitWith (st : AtomicUpdate) (excRaised : Bool) : AtomicUpdate :=
  st.close (!excRaised)

/-- `atomic_update.__del__`: close without committing. -/
def finalize (st : AtomicUpdate) : AtomicUpdate :=
  st.close false

/-- Concatenation of everything written inside the scoped block. -/
def concatWrites : List String → String
  | [] => ""
  | s :: rest => s ++ concatWrites rest

/-- One full `with atomic_update(path) as file:` block over a target
whose prior content is `target0`: perform the writes in order, then
either finish normally (commit) or raise after the last write (abort). -/
def runWith (target0 : Option String) (writes : List String) (excRaised : Bool) :
    AtomicUpdate :=
  (writes.foldl write (init target0)).exitWith excRaised

theorem foldl_write (ws : List String) (st : AtomicUpdate) (c : String)
    (hOpen : st.isOpen = true) (hTemp : st.temp = some c) :
    ws.foldl write st = { st with temp := some (c ++ concatWrites ws) } := by
  induction ws generalizing st c with
  | nil => simp [concatWrites, hTemp.symm]
  | cons w rest ih =>
      simp only [List.foldl_cons, concatWrites]
      rw [ih (write st w) (c ++ w) (by simp [write, hOpen]) (by simp [write, hOpen, hTemp])]
      simp [write, hOpen, String.append_assoc]

end AtomicUpdate

/-- C2 (amended): for every target path and sequence of scoped writes,
`atomic_update` commits on normal completion with one atomic rename:
the target then equals the written content and no temporary file
remains.  An exception raised inside the scoped write aborts instead:
the target's prior content is untouched — but the temporary file, with
the content written so far, is left behind rather than discarded (the
code never unlinks it, and the repository's own test asserts that it
remains). -/
theorem atomic_update_commit_and_abort (t0 : Option String) (ws : List String) :
    (AtomicUpdate.runWith t0 ws false).target = some (AtomicUpdate.concatWrites ws) ∧
    (AtomicUpdate.runWith t0 ws false).temp = none ∧
    (AtomicUpdate.runWith t0 ws true).target = t0 ∧
    (AtomicUpdate.runWith t0 ws true).temp = some (AtomicUpdate.concatWrites ws) := by
  have h := AtomicUpdate.foldl_write ws (AtomicUpdate.init t0) "" rfl rfl
  simp only [AtomicUpdate.init] at h
  simp only [AtomicUpdate.runWith, AtomicUpdate.init, h]
  simp [AtomicUpdate.exitWith, AtomicUpdate.close, String.empty_append]

/-- Counterexample to C2 as stated: with prior target content
`"original"` and the single scoped write `"update"` followed by an
exception, the target keeps its prior content but the temporary file is
NOT discarded — it remains, holding `"update"`. -/
theorem atomic_update_abort_keeps_temp_counterexample :
    (AtomicUpdate.runWith (some "original") ["update"] true).target = some "original" ∧
    (AtomicUpdate.runWith (some "original") ["update"] true).temp = some "update" ∧
    (AtomicUpdate.runWith (some "original") ["update"] true).temp ≠ none := by
  refine ⟨rfl, rfl, by decide⟩

/-- C10: once `close` has run — directly, through `__exit__`, or through
`__del__` — every further `close`, `__exit__`, or `__del__` call on the
instance is a no-op: it changes neither the target file nor the
temporary file (in particular the commit rename happens at most once). -/
theorem atomic_update_close_idempotent (st : AtomicUpdate) (c1 c2 e : Bool) :
    (st.close c1).close c2 = st.close c1 ∧
    (st.close c1).exitWith e = st.close c1 ∧
    (st.close c1).finalize = st.close c1 := by
  have hclosed : (st.close c1).isOpen = false := by
    simp only [AtomicUpdate.close]
    split_ifs with h1 h2
    · exact h1
    · rfl
    · rfl
  have key : ∀ c, (st.close c1).close c = st.close c1 := by
    intro c
    rw [AtomicUpdate.close, if_pos hclosed]
  exact ⟨key c2, key (!e), key false⟩

/- ====================================================================
   src/analog/label.py — ContentType
   ==================================================================== -/

/-- The `ContentType` enumeration of `label.py`. -/
inductive ContentType
  | CONFIG
  | DIRECTORY
  | FAVICON
  | FONT
  | GRAPHIC
  | JSON
  | MARKUP
  | IMAGE
  | PHP
  | SCRIPT
  | SITEMAP
  | STYLE
  | TEXT
  | UNKNOWN
  | VIDEO
  | XML
deriving DecidableEq, Repr

/-- `dict.get` over a small literal table (first matching key wins;
the Python dict literals below have distinct keys). -/
def tableGet : List (String × ContentType) → String → Option ContentType
  | [], _ => none
  | (k, v) :: rest, key => if key = k then some v else tableGet rest key

/-- `_PATH_2_CONTENT_TYPE`. -/
def PATH_2_CONTENT_TYPE : List (String × ContentType) :=
  [("/", ContentType.MARKUP),
   ("/favicon.ico", ContentType.FAVICON),
   ("/sitemap.xml", ContentType.SITEMAP)]

/-- `_EXTENSION_2_CONTENT_TYPE`, flattened exactly as the dict
comprehension in `label.py` produces it. -/
def EXTENSION_2_CONTENT_TYPE : List (String × ContentType) :=
  [(".cfg", ContentType.CONFIG), (".ini", ContentType.CONFIG),
   (".webmanifest", ContentType.CONFIG),
   (".woff", ContentType.FONT), (".woff2", ContentType.FONT),
   (".svg", ContentType.GRAPHIC),
   (".json", ContentType.JSON),
   ("", ContentType.MARKUP), (".htm", ContentType.MARKUP),
   (".html", ContentType.MARKUP),
   (".gif", ContentType.IMAGE), (".ico", ContentType.IMAGE),
   (".jpg", ContentType.IMAGE), (".jpeg", ContentType.IMAGE),
   (".png", ContentType.IMAGE), (".webp", ContentType.IMAGE),
   (".php", ContentType.PHP),
   (".js", ContentType.SCRIPT), (".mjs", ContentType.SCRIPT),
   (".css", ContentType.STYLE),
   (".log", ContentType.TEXT), (".txt", ContentType.TEXT),
   (".avi", ContentType.VIDEO), (".mkv", ContentType.VIDEO),
   (".mp4", ContentType.VIDEO),
   (".xml", ContentType.XML)]

/-- `str.rfind`: index of the last occurrence of `c`, `-1` if absent. -/
def rfindAux : List Char → Char → Int → Int
  | [], _, _ => -1
  | x :: rest, c, i =>
      let r := rfindAux rest c (i + 1)
      if r ≠ -1 then r else if x = c then i else -1

def rfind (cs : List Char) (c : Char) : Int :=
  rfindAux cs c 0

/-- `os.path.splitext` on POSIX (`genericpath._splitext` with separator
`/` and extension separator `.`): the extension starts at the last dot,
provided that dot lies after the last slash and the characters between
the last slash and that dot are not all dots. -/
def splitext (p : String) : String × String :=
  let cs := p.data
  let sepIndex := rfind cs '/'
  let dotIndex := rfind cs '.'
  if sepIndex < dotIndex then
    let base := (cs.drop (sepIndex + 1).toNat).take (dotIndex - sepIndex - 1).toNat
    if base.any (fun c => c ≠ '.') then
      (String.mk (cs.take dotIndex.toNat), String.mk (cs.drop dotIndex.toNat))
    else (p, "")
  else (p, "")

/-- `ContentType.of`.  The Python body tests `if type:` — every
`ContentType` label is a non-empty string and hence truthy, so the test
is equivalent to the table lookup succeeding.  `path[-1]` raises
`IndexError` on the empty string, modelled as `none`. -/
def ContentType.of (path : String) : Option ContentType :=
  match tableGet PATH_2_CONTENT_TYPE path with
  | some t => some t
  | none =>
      match path.data.getLast? with
      | none => none
      | some c =>
          if c = '/' then some ContentType.DIRECTORY
          else some ((tableGet EXTENSION_2_CONTENT_TYPE (splitext path).2).getD
            ContentType.UNKNOWN)

/-- Modelled from the spec: "content-type by exact-path table (root,
favicon, sitemap) else by extension else `UNKNOWN`" — the refinement
C7 asserts of `ContentType.of`, with no rule for trailing slashes. -/
def contentTypeSpec (path : String) : ContentType :=
  match tableGet PATH_2_CONTENT_TYPE path with
  | some t => t
  | none => (tableGet EXTENSION_2_CONTENT_TYPE (splitext path).2).getD
      ContentType.UNKNOWN

/-- Counterexample to C7 as stated: the non-empty path `"/blog/"` is not
an exact-path table entry, and its extension (`""`) maps to `MARKUP`,
but `ContentType.of` returns `DIRECTORY` because the path ends in a
slash. -/
theorem content_type_trailing_slash_counterexample :
    ContentType.of "/blog/" = some ContentType.DIRECTORY ∧
    contentTypeSpec "/blog/" = ContentType.MARKUP ∧
    ContentType.of "/blog/" ≠ some (contentTypeSpec "/blog/") := by
  refine ⟨by decide, by decide, by decide⟩

/-- C7 (amended): for every non-empty path other than the exact-path
entries and not ending in a slash, the derived content type equals the
type mapped from the path's extension (`UNKNOWN` when unmapped); a
non-table path that ends in a slash derives `DIRECTORY` instead. -/
theorem content_type_by_extension (p : String)
    (hne : p ≠ "")
    (h1 : p ≠ "/") (h2 : p ≠ "/favicon.ico") (h3 : p ≠ "/sitemap.xml")
    (hslash : p.data.getLast? ≠ some '/') :
    ContentType.of p =
      some ((tableGet EXTENSION_2_CONTENT_TYPE (splitext p).2).getD
        ContentType.UNKNOWN) ∧
    (∀ q : String, q ≠ "/" → q.data.getLast? = some '/' →
      ContentType.of q = some ContentType.DIRECTORY) := by
  constructor
  · have htab : tableGet PATH_2_CONTENT_TYPE p = none := by
      simp [tableGet, PATH_2_CONTENT_TYPE, h1, h2, h3]
    unfold ContentType.of
    rw [htab]
    match hp : p.data.getLast? with
    | none =>
        exfalso
        apply hne
        have hdata : p.data = [] := by
          cases hd : p.data with
          | nil => rfl
          | cons a l => rw [hd] at hp; simp [List.getLast?_concat] at hp
        cases p with
        | mk data =>
            simp only [String.data] at hdata
            rw [hdata]
    | some c =>
        have hc : c ≠ '/' := by
          intro h
          exact hslash (h ▸ hp)
        simp [hc]
  · intro q hq1 hq2
    have htabq : tableGet PATH_2_CONTENT_TYPE q = none := by
      have hq2' : q ≠ "/favicon.ico" := by
        intro h; subst h; simp at hq2
      have hq3' : q ≠ "/sitemap.xml" := by
        intro h; subst h; simp at hq2
      simp [tableGet, PATH_2_CONTENT_TYPE, hq1, hq2', hq3']
    unfold ContentType.of
    rw [htabq, hq2]
    simp

/-- Witness for C7 at the concrete path `"/a.css"`. -/
theorem content_type_by_extension_witness :
    ContentType.of "/a.css" =
      some ((tableGet EXTENSION_2_CONTENT_TYPE (splitext "/a.css").2).getD
        ContentType.UNKNOWN) :=
  (content_type_by_extension "/a.css" (by decide) (by decide) (by decide)
    (by decide) (by decide)).1

/- ====================================================================
   src/analog/schema.py
   ==================================================================== -/

/-- The distinct pandas dtypes appearing in `SCHEMA`. -/
inductive Dtype
  | string
  | tsUTC
  | catMethod
  | catProtocol
  | int16
  | int32
  | catContentType
  | catScheme
  | catStatusClass
  | float64
  | boolean
  | catBotCategory
deriving DecidableEq, Repr

/-- `schema.SCHEMA`: column names with their exact dtypes, in source
order. -/
def SCHEMA : List (String × Dtype) :=
  [("client_address", Dtype.string),
   ("timestamp", Dtype.tsUTC),
   ("method", Dtype.catMethod),
   ("path", Dtype.string),
   ("query", Dtype.string),
   ("fragment", Dtype.string),
   ("protocol", Dtype.catProtocol),
   ("status", Dtype.int16),
   ("size", Dtype.int32),
   ("referrer", Dtype.string),
   ("user_agent", Dtype.string),
   ("server_name", Dtype.string),
   ("server_address", Dtype.string),
   ("content_type", Dtype.catContentType),
   ("cool_path", Dtype.string),
   ("referrer_scheme", Dtype.catScheme),
   ("referrer_host", Dtype.string),
   ("referrer_path", Dtype.string),
   ("referrer_query", Dtype.string),
   ("referrer_fragment", Dtype.string),
   ("status_class", Dtype.catStatusClass),
   ("client_name", Dtype.string),
   ("client_latitude", Dtype.float64),
   ("client_longitude", Dtype.float64),
   ("client_city", Dtype.string),
   ("client_country", Dtype.string),
   ("agent_family", Dtype.string),
   ("agent_version", Dtype.string),
   ("os_family", Dtype.string),
   ("os_version", Dtype.string),
   ("device_family", Dtype.string),
   ("device_brand", Dtype.string),
   ("device_model", Dtype.string),
   ("is_bot", Dtype.boolean),
   ("bot_category", Dtype.catBotCategory),
   ("is_bot2", Dtype.boolean)]

/-- `schema.NON_NULL_COLUMNS`. -/
def NON_NULL_COLUMNS : List String :=
  ["client_address", "timestamp", "method", "path", "protocol", "status",
   "size", "content_type", "cool_path", "status_class", "is_bot",
   "bot_category", "is_bot2"]

/-- `schema.NullConstraint`: `equal` columns must be null/non-null in
exactly the same rows; `at_least` columns may be non-null only where the
first `equal` column is non-null. -/
structure NullConstraint where
  equal : List String
  at_least : List String
deriving DecidableEq, Repr

/-- `schema.NULL_CONSTRAINTS`. -/
def NULL_CONSTRAINTS : List NullConstraint :=
  [⟨["server_name", "server_address"], []⟩,
   ⟨["referrer_scheme", "referrer_host"],
    ["referrer_path", "referrer_query", "referrer_fragment"]⟩,
   ⟨["client_latitude", "client_longitude"], []⟩,
   ⟨["agent_family", "agent_version", "os_family", "os_version",
     "device_family", "device_brand", "device_model"], []⟩]

/-- A dataframe, as far as `validate` can observe one: its column list,
the dtype of each column, and — since `validate` inspects cell values
only through `notnull`/`isna` masks — each row as its per-column
notnull mask (`true` = the cell is non-null). -/
structure DataFrame where
  columns : List String
  dtypes : String → Dtype
  rows : List (String → Bool)

/-- The inner `for column2 in self.equal[1:]` loop of
`NullConstraint.apply_to`: raise on the first column whose notnull mask
differs from `column1`'s in some row. -/
def checkEqual (rows : List (String → Bool)) (c1 : String) :
    List String → Except String Unit
  | [] => Except.ok ()
  | c2 :: rest =>
      if rows.any (fun r => r c2 != r c1) then
        Except.error (c1 ++ " and " ++ c2 ++ " mix null and non-null values in same row")
      else checkEqual rows c1 rest

/-- The `for column2 in self.at_least` loop of
`NullConstraint.apply_to`: `values2.__or__(values1).ne(values1).any()`
raises when some row is non-null in `column2` yet null in `column1`. -/
def checkAtLeast (rows : List (String → Bool)) (c1 : String) :
    List String → Except String Unit
  | [] => Except.ok ()
  | c2 :: rest =>
      if rows.any (fun r => (r c2 || r c1) != r c1) then
        Except.error (c2 ++ " has non-null values in rows that are null in " ++ c1)
      else checkAtLeast rows c1 rest

/-- `NullConstraint.apply_to`.  The source reads `column1 =
self.equal[0]`; every constraint in `NULL_CONSTRAINTS` has a non-empty
`equal` list, so `headD` never falls back to its default. -/
def NullConstraint.applyTo (nc : NullConstraint) (rows : List (String → Bool)) :
    Except String Unit :=
  match checkEqual rows (nc.equal.headD "") nc.equal.tail with
  | Except.error e => Except.error e
  | Except.ok _ => checkAtLeast rows (nc.equal.headD "") nc.at_least

/-- Check (1) of `validate`: the actual and expected column sets are
equal. -/
def sameColumnSet (df : DataFrame) : Bool :=
  SCHEMA.all (fun p => df.columns.contains p.1) &&
    df.columns.all (fun c => (SCHEMA.map Prod.fst).contains c)

/-- Check (2) of `validate`: the columns whose dtype differs from the
schema's. -/
def maltyped (df : DataFrame) : List String :=
  (SCHEMA.filter (fun p => decide (df.dtypes p.1 ≠ p.2))).map Prod.fst

/-- Check (3) of `validate`: the `for column in NON_NULL_COLUMNS` loop,
raising on the first column containing a null. -/
def checkNonNull (rows : List (String → Bool)) : List String → Except String Unit
  | [] => Except.ok ()
  | c :: rest =>
      if (rows.filter (fun r => !(r c))).length ≠ 0 then
        Except.error ("column " ++ c ++ " unexpectedly contains nulls")
      else checkNonNull rows rest

/-- Check (4) of `validate`: the `for constraint in NULL_CONSTRAINTS`
loop. -/
def applyConstraints (rows : List (String → Bool)) :
    List NullConstraint → Except String Unit
  | [] => Except.ok ()
  | nc :: rest =>
      match nc.applyTo rows with
      | Except.error e => Except.error e
      | Except.ok _ => applyConstraints rows rest

/-- `schema.validate`: the four checks in order, failing fast on the
first violation. -/
def validate (df : DataFrame) : Except String Unit :=
  if !(sameColumnSet df) then
    Except.error "dataframe has missing or extra columns"
  else if maltyped df ≠ [] then
    Except.error "dataframe has maltyped columns"
  else
    match checkNonNull df.rows NON_NULL_COLUMNS with
    | Except.error e => Except.error e
    | Except.ok _ => applyConstraints df.rows NULL_CONSTRAINTS

/-- A null-correlation rule holds semantically: all `equal` columns have
the first one's notnull mask, and `at_least` columns are non-null only
where the first one is. -/
def NullConstraint.Holds (nc : NullConstraint) (rows : List (String → Bool)) : Prop :=
  (∀ c2 ∈ nc.equal, ∀ r ∈ rows, r c2 = r (nc.equal.headD "")) ∧
  (∀ c2 ∈ nc.at_least, ∀ r ∈ rows, r c2 = true → r (nc.equal.headD "") = true)

theorem checkEqual_ok_iff (rows : List (String → Bool)) (c1 : String)
    (cols : List String) :
    checkEqual rows c1 cols = Except.ok () ↔
      ∀ c2 ∈ cols, ∀ r ∈ rows, r c2 = r c1 := by
  induction cols with
  | nil => simp [checkEqual]
  | cons c2 rest ih =>
      simp only [checkEqual]
      split
      · rename_i hany
        simp only [List.any_eq_true, bne_iff_ne, ne_eq] at hany
        obtain ⟨r, hr, hne⟩ := hany
        constructor
        · intro h; cases h
        · intro h
          exact absurd (h c2 (by simp) r hr) hne
      · rename_i hany
        simp only [List.any_eq_true, bne_iff_ne, ne_eq, not_exists, not_and] at hany
        rw [ih]
        constructor
        · intro h c hc r hr
          rcases List.mem_cons.mp hc with hc | hc
          · subst hc
            by_contra hne
            exact (hany r hr) hne
          · exact h c hc r hr
        · intro h c hc r hr
          exact h c (List.mem_cons_of_mem _ hc) r hr

theorem checkAtLeast_ok_iff (rows : List (String → Bool)) (c1 : String)
    (cols : List String) :
    checkAtLeast rows c1 cols = Except.ok () ↔
      ∀ c2 ∈ cols, ∀ r ∈ rows, r c2 = true → r c1 = true := by
  induction cols with
  | nil => simp [checkAtLeast]
  | cons c2 rest ih =>
      simp only [checkAtLeast]
      split
      · rename_i hany
        simp only [List.any_eq_true, bne_iff_ne, ne_eq] at hany
        obtain ⟨r, hr, hne⟩ := hany
        constructor
        · intro h; cases h
        · intro h
          exfalso
          apply hne
          cases h2 : r c2 with
          | false => simp [h2]
          | true =>
              have h1 := h c2 (by simp) r hr h2
              simp [h2, h1]
      · rename_i hany
        simp only [List.any_eq_true, bne_iff_ne, ne_eq, not_exists, not_and] at hany
        rw [ih]
        constructor
        · intro h c hc r hr
          rcases List.mem_cons.mp hc with hc | hc
          · subst hc
            intro h2
            have := hany r hr
            cases h1 : r c1
            · exfalso; apply this; simp [h2, h1]
            · rfl
          · exact h c hc r hr
        · intro h c hc r hr
          exact h c (List.mem_cons_of_mem _ hc) r hr

theorem applyTo_ok_iff (nc : NullConstraint) (rows : List (String → Bool)) :
    nc.applyTo rows = Except.ok () ↔ nc.Holds rows := by
  unfold NullConstraint.applyTo NullConstraint.Holds
  cases heq : checkEqual rows (nc.equal.headD "") nc.equal.tail with
  | error e =>
      constructor
      · intro h; exact Except.noConfusion h
      · intro h
        exfalso
        have hok : checkEqual rows (nc.equal.headD "") nc.equal.tail =
            Except.ok () := by
          rw [checkEqual_ok_iff]
          intro c2 hc2 r hr
          exact h.1 c2 (List.tail_subset _ hc2) r hr
        rw [hok] at heq
        exact Except.noConfusion heq
  | ok u =>
      cases u
      show checkAtLeast rows (nc.equal.headD "") nc.at_least = Except.ok () ↔ _
      rw [checkAtLeast_ok_iff]
      rw [checkEqual_ok_iff] at heq
      constructor
      · intro h
        refine ⟨?_, h⟩
        intro c2 hc2 r hr
        cases hl : nc.equal with
        | nil => rw [hl] at hc2; cases hc2
        | cons e0 tl =>
            rw [hl] at hc2 heq
            simp only [List.headD_cons, List.tail_cons] at heq ⊢
            rcases List.mem_cons.mp hc2 with hc | hc
            · subst hc; rfl
            · exact heq c2 hc r hr
      · intro h
        exact h.2

theorem applyConstraints_ok_iff (rows : List (String → Bool))
    (ncs : List NullConstraint) :
    applyConstraints rows ncs = Except.ok () ↔
      ∀ nc ∈ ncs, nc.applyTo rows = Except.ok () := by
  induction ncs with
  | nil => simp [applyConstraints]
  | cons nc rest ih =>
      simp only [applyConstraints]
      cases h : nc.applyTo rows with
      | error e =>
          constructor
          · intro hh; exact Except.noConfusion hh
          · intro hh
            have := hh nc (by simp)
            rw [h] at this
            exact Except.noConfusion this
      | ok u =>
          cases u
          show applyConstraints rows rest = Except.ok () ↔ _
          rw [ih]
          constructor
          · intro hh c hc
            rcases List.mem_cons.mp hc with hc | hc
            · subst hc; exact h
            · exact hh c hc
          · intro hh c hc
            exact hh c (List.mem_cons_of_mem _ hc)

/-- C5: for every dataframe that passes the column-set, column-type, and
non-null checks: a row with non-null `referrer_host` but null
`referrer_scheme` makes `validate` raise a `ValidationError`; if instead
`referrer_scheme` and `referrer_host` are null in exactly the same rows
and the null-correlation rules hold, `validate` raises no error. -/
theorem validate_referrer_null_correlation (df : DataFrame)
    (hcols : sameColumnSet df = true)
    (htypes : maltyped df = [])
    (hnn : checkNonNull df.rows NON_NULL_COLUMNS = Except.ok ()) :
    ((∃ r ∈ df.rows, r "referrer_host" = true ∧ r "referrer_scheme" = false) →
      ∃ e, validate df = Except.error e) ∧
    ((∀ r ∈ df.rows, r "referrer_scheme" = r "referrer_host") →
      (∀ nc ∈ NULL_CONSTRAINTS, nc.Holds df.rows) →
      validate df = Except.ok ()) := by
  have hval : validate df = applyConstraints df.rows NULL_CONSTRAINTS := by
    simp [validate, hcols, htypes, hnn]
  constructor
  · intro ⟨r, hr, hhost, hscheme⟩
    cases hv : validate df with
    | error e => exact ⟨e, rfl⟩
    | ok u =>
        exfalso
        cases u
        rw [hval, applyConstraints_ok_iff] at hv
        have h2 := hv ⟨["referrer_scheme", "referrer_host"],
          ["referrer_path", "referrer_query", "referrer_fragment"]⟩
          (by simp [NULL_CONSTRAINTS])
        rw [applyTo_ok_iff] at h2
        have hmask := h2.1 "referrer_host" (by simp) r hr
        simp only [List.headD_cons] at hmask
        rw [hhost, hscheme] at hmask
        exact Bool.noConfusion hmask
  · intro _ hall
    rw [hval, applyConstraints_ok_iff]
    intro nc hnc
    rw [applyTo_ok_iff]
    exact hall nc hnc

/-- `dict`-style first match in `SCHEMA` (keys are distinct). -/
def schemaDtype (c : String) : Dtype :=
  ((SCHEMA.find? (fun p => p.1 == c)).map Prod.snd).getD Dtype.string

/-- A concrete row whose must-be-non-null columns are non-null and whose
optional columns are all null. -/
def rowAllRequired : String → Bool := fun c => NON_NULL_COLUMNS.contains c

/-- A concrete well-typed dataframe with a single row. -/
def dfWitness : DataFrame :=
  ⟨SCHEMA.map Prod.fst, schemaDtype, [rowAllRequired]⟩

/-- Witness for C5: the concrete dataframe `dfWitness` passes all checks
of `validate`. -/
theorem validate_referrer_null_correlation_witness :
    validate dfWitness = Except.ok () :=
  (validate_referrer_null_correlation dfWitness rfl rfl rfl).2
    (by
      intro r hr
      simp only [dfWitness, List.mem_singleton] at hr
      subst hr
      rfl)
    (by
      intro nc hnc
      simp only [NULL_CONSTRAINTS, List.mem_cons, List.mem_singleton,
        List.not_mem_nil, or_false] at hnc
      unfold NullConstraint.Holds
      rcases hnc with h | h | h | h <;> subst h <;> decide)

/- ====================================================================
   src/analog/data_manager.py — Coverage
   ==================================================================== -/

/-- An enriched monthly Parquet file as `Coverage.__init__` sees it
after the `*-????-??.parquet` glob: the stem decomposes into the domain
(`stem[:-8]`) and the month key (`stem[-7:]`, a `yyyy-mm` string, which
is in bijection with the month it denotes). -/
structure EnrichedFile where
  domain : String
  month : MonthInYear
deriving DecidableEq, Repr

/-- The three `StorageError` cases of `Coverage.__init__`. -/
inductive StorageErr
  | missingDirectory
  | noEnrichedLogs
  | severalDomains
deriving DecidableEq, Repr

/-- The mutable state of a `Coverage` instance.  `monthly` models
`self._monthly_requests`, keyed by month instead of by the month's
`str()` key (on months, `str` is injective, so the keying is the same).
Insertion order is preserved, as in a Python dict. -/
structure Coverage where
  domain : String
  ingested : List EnrichedFile
  begin_ : MonthInYear
  end_ : MonthInYear
  days : Int
  months : Int
  monthly : List (MonthInYear × Nat)
  total : Nat
deriving DecidableEq, Repr

/-- Ordering used by `sorted(..., key=itemgetter(0))` in
`Coverage.__init__`: compare files by month only. -/
def fileLE (a b : EnrichedFile) : Prop :=
  a.month.leb b.month = true

instance : DecidableRel fileLE := by
  unfold fileLE; infer_instance

/-- `dict` lookup in `monthly` (`key in self._monthly_requests` /
`self._monthly_requests.get`). -/
def mlookup : List (MonthInYear × Nat) → MonthInYear → Option Nat
  | [], _ => none
  | (k, v) :: rest, m => if m = k then some v else mlookup rest m

/-- The tail of `Coverage.__init__` applied to the sorted glob result:
fail on an empty directory, extract the first file's domain, reject
multiple domains, otherwise record sorted files, begin and end months,
and zeroed counters. -/
def coverageOfSorted : List EnrichedFile → Except StorageErr Coverage
  | [] => Except.error StorageErr.noEnrichedLogs
  | first :: rest =>
      if (first :: rest).any (fun f => f.domain ≠ first.domain) then
        Except.error StorageErr.severalDomains
      else
        Except.ok
          { domain := first.domain,
            ingested := first :: rest,
            begin_ := first.month,
            end_ := (rest.getLastD first).month,
            days := 0, months := 0, monthly := [], total := 0 }

/-- `Coverage.__init__` over the enriched-output directory: `none`
means the directory does not exist; `some files` lists the glob's
matches, which get sorted by month (`sorted(..., key=itemgetter(0))`). -/
def coverageInit (dir : Option (List EnrichedFile)) : Except StorageErr Coverage :=
  match dir with
  | none => Except.error StorageErr.missingDirectory
  | some files => coverageOfSorted (List.insertionSort fileLE files)

/-- C3: constructing `Coverage` succeeds exactly when the
enriched-output directory exists, contains at least one monthly enriched
file, and all files share one domain; in every other case construction
fails with a `StorageError`. -/
theorem coverage_construction_iff (dir : Option (List EnrichedFile)) :
    (∃ c, coverageInit dir = Except.ok c) ↔
      ∃ files, dir = some files ∧ files ≠ [] ∧
        ∃ d, ∀ f ∈ files, f.domain = d := by
  cases dir with
  | none =>
      constructor
      · intro ⟨c, hc⟩; exact Except.noConfusion hc
      · intro ⟨files, hf, _⟩; exact Option.noConfusion hf
  | some files =>
      have hperm := List.perm_insertionSort fileLE files
      constructor
      · intro ⟨c, hc⟩
        have hc2 : coverageOfSorted (List.insertionSort fileLE files) =
            Except.ok c := hc
        cases hs : List.insertionSort fileLE files with
        | nil =>
            rw [hs] at hc2
            exact Except.noConfusion hc2
        | cons first rest =>
            rw [hs] at hc2 hperm
            simp only [coverageOfSorted] at hc2
            by_cases hany :
                ((first :: rest).any fun f => decide (f.domain ≠ first.domain)) = true
            · rw [if_pos hany] at hc2
              exact Except.noConfusion hc2
            · refine ⟨files, rfl, ?_, first.domain, ?_⟩
              · intro h
                subst h
                simpa using hperm.length_eq
              · intro f hf
                have hf2 : f ∈ first :: rest := hperm.mem_iff.mpr hf
                by_contra hne
                apply hany
                simp only [List.any_eq_true, decide_eq_true_eq]
                exact ⟨f, hf2, hne⟩
      · intro ⟨fs, hf, hne, d, hd⟩
        cases hf
        cases hs : List.insertionSort fileLE files with
        | nil =>
            rw [hs] at hperm
            exact absurd hperm.nil_eq.symm hne
        | cons first rest =>
            rw [hs] at hperm
            have hany :
                ((first :: rest).any fun f => decide (f.domain ≠ first.domain)) = false := by
              simp only [List.any_eq_false, decide_eq_true_eq]
              intro f hf2
              have h1 := hd f (hperm.mem_iff.mp hf2)
              have h2 := hd first (hperm.mem_iff.mp (by simp))
              simp [h1, h2]
            refine ⟨Coverage.mk first.domain (first :: rest) first.month
              ((rest.getLastD first).month) 0 0 [] 0, ?_⟩
            show coverageOfSorted (List.insertionSort fileLE files) = Except.ok _
            rw [hs]
            simp only [coverageOfSorted]
            rw [if_neg (fun h => Bool.noConfusion (hany ▸ h))]

namespace MonthInYear

theorem add_zero_valid (m : MonthInYear) (h : m.validMonth) : m.add 0 = m :=
  index_inj _ _ (validMonth_add m 0 h) h (by rw [index_add]; ring)

theorem add_add_valid (m : MonthInYear) (h : m.validMonth) (a c : Int) :
    (m.add a).add c = m.add (a + c) :=
  index_inj _ _ (validMonth_add _ c (validMonth_add _ a h)) (validMonth_add _ _ h)
    (by rw [index_add, index_add, index_add]; ring)

end MonthInYear

/-- The consecutive months `b, b+1, ..., b+(len-1)`. -/
def monthRange (b : MonthInYear) (len : Nat) : List MonthInYear :=
  (List.range len).map (fun i : Nat => b.add (i : Int))

/-- `Coverage.register_log_data`: the two `assert` statements become
`none`; on success the counters are bumped and the month's request count
(`len(data)` in the source, passed here directly) is recorded. -/
def registerLogData (c : Coverage) (m : MonthInYear) (requests : Nat) :
    Option Coverage :=
  if !(c.begin_.leb m && m.leb c.end_) then none
  else if (mlookup c.monthly m).isSome then none
  else some { c with
    days := c.days + m.days,
    months := c.months + 1,
    monthly := c.monthly ++ [(m, requests)],
    total := c.total + requests }

/-- Registering a batch of months in order, stopping at the first
failed assertion. -/
def registerAll (c : Coverage) : List (MonthInYear × Nat) → Option Coverage
  | [] => some c
  | p :: rest => (registerLogData c p.1 p.2).bind (fun c2 => registerAll c2 rest)

/-- The dictionary `Coverage.summary` returns.  `missing` models
`", ".join(missing) if missing else None`: `none` when no month is
missing, otherwise the list whose keys get joined. -/
structure CoverageSummary where
  domain : String
  requests : Nat
  days : Int
  months : Int
  begin_ : MonthInYear
  end_ : MonthInYear
  missing : Option (List MonthInYear)
deriving DecidableEq, Repr

/-- The `while cursor < self._end` loop of `Coverage.summary`: each
iteration advances the cursor one month and either accumulates its days
and month count (when registered) or appends it to `missing`.  The loop
is modelled with fuel: for valid months the cursor reaches `end` after
exactly `end - begin` iterations, at which point the condition turns
false. -/
def summaryWalk (c : Coverage) (cursor : MonthInYear) (fuel : Nat)
    (days months : Int) (missing : List MonthInYear) :
    Int × Int × List MonthInYear :=
  match fuel with
  | 0 => (days, months, missing)
  | f + 1 =>
      let cur := cursor.next
      if (mlookup c.monthly cur).isSome then
        summaryWalk c cur f (days + cur.days) (months + 1) missing
      else
        summaryWalk c cur f days months (missing ++ [cur])

/-- `Coverage.summary`: run the loop starting from `begin` (whose days
and month count are accumulated unconditionally), then cross-check the
three `assert` statements (modelled as `none` on failure) and produce
the summary record. -/
def Coverage.summary (c : Coverage) : Option CoverageSummary :=
  let fuel := (c.end_.diff c.begin_).toNat
  let w := summaryWalk c c.begin_ fuel c.begin_.days 1 []
  if w.1 = c.days ∧ w.2.1 = c.months ∧ w.2.1 = (c.monthly.length : Int) then
    some ⟨c.domain, c.total, c.days, c.months, c.begin_, c.end_,
      if w.2.2 = [] then none else some w.2.2⟩
  else none

theorem mlookup_append_none (l1 l2 : List (MonthInYear × Nat)) (m : MonthInYear)
    (h : mlookup l1 m = none) : mlookup (l1 ++ l2) m = mlookup l2 m := by
  induction l1 with
  | nil => simp
  | cons p rest ih =>
      obtain ⟨k, v⟩ := p
      by_cases hmk : m = k
      · simp only [mlookup, if_pos hmk] at h
        exact Option.noConfusion h
      · simp only [List.cons_append, mlookup, if_neg hmk] at h ⊢
        exact ih h

theorem mlookup_isSome_iff (l : List (MonthInYear × Nat)) (m : MonthInYear) :
    (mlookup l m).isSome = true ↔ m ∈ l.map Prod.fst := by
  induction l with
  | nil => simp [mlookup]
  | cons p rest ih =>
      obtain ⟨k, v⟩ := p
      simp only [mlookup, List.map_cons, List.mem_cons]
      by_cases hmk : m = k
      · simp [hmk]
      · simp [hmk, ih]

theorem monthRange_nodup (b : MonthInYear) (len : Nat) :
    (monthRange b len).Nodup := by
  unfold monthRange
  refine List.Nodup.map_on ?_ (List.nodup_range len)
  intro x _ y _ hxy
  have h := congrArg MonthInYear.index hxy
  rw [MonthInYear.index_add, MonthInYear.index_add] at h
  omega

theorem registerAll_spec (L : List (MonthInYear × Nat)) :
    ∀ c : Coverage,
      (∀ p ∈ L, (c.begin_.leb p.1 && p.1.leb c.end_) = true) →
      (∀ p ∈ L, mlookup c.monthly p.1 = none) →
      L.Pairwise (fun p q => p.1 ≠ q.1) →
      registerAll c L = some
        { c with
          days := c.days + (L.map (fun p => p.1.days)).sum,
          months := c.months + L.length,
          monthly := c.monthly ++ L,
          total := c.total + (L.map Prod.snd).sum } := by
  induction L with
  | nil =>
      intro c _ _ _
      simp [registerAll]
  | cons p rest ih =>
      intro c hin hnew hnd
      obtain ⟨m, req⟩ := p
      have hin0 := hin (m, req) (by simp)
      have hnew0 := hnew (m, req) (by simp)
      obtain ⟨hhead, htail⟩ := List.pairwise_cons.mp hnd
      simp only [registerAll, registerLogData]
      rw [hin0, hnew0]
      simp only [Bool.not_true, Option.isSome_none]
      rw [if_neg (fun h => Bool.noConfusion h), if_neg (fun h => Bool.noConfusion h)]
      rw [Option.some_bind]
      rw [ih _ ?_ ?_ htail]
      · simp only [List.map_cons, List.sum_cons, List.length_cons,
          List.append_assoc, List.singleton_append]
        refine congrArg some ?_
        simp only [Coverage.mk.injEq, true_and, List.append_assoc,
          List.singleton_append, and_true]
        omega
      · intro q hq
        simpa using hin q (List.mem_cons_of_mem _ hq)
      · intro q hq
        simp only
        rw [mlookup_append_none _ _ _ (hnew q (List.mem_cons_of_mem _ hq))]
        have hne : q.1 ≠ m := fun h => (hhead q hq) h.symm
        simp [mlookup, hne]

theorem monthRange_succ_left (x : MonthInYear) (hx : x.validMonth) (j : Nat) :
    monthRange x (j + 1) = x :: monthRange (x.add 1) j := by
  unfold monthRange
  rw [List.range_succ_eq_map]
  simp only [List.map_cons, Nat.cast_zero, List.map_map]
  congr 1
  · exact MonthInYear.add_zero_valid x hx
  · have hfun : ((fun i : Nat => x.add (i : Int)) ∘ Nat.succ) =
        (fun i : Nat => (x.add 1).add (i : Int)) := by
      funext t
      rw [Function.comp_apply, MonthInYear.add_add_valid x hx]
      congr 1
      push_cast
      ring
    rw [hfun]

theorem summaryWalk_spec (c : Coverage) (k : Int) (b : MonthInYear)
    (hb : b.validMonth)
    (hpresent : ∀ t : Int, 1 ≤ t → t ≤ k →
      (mlookup c.monthly (b.add t)).isSome = true) :
    ∀ (j : Nat) (i : Int), 0 ≤ i → i + j ≤ k →
      ∀ (days months : Int) (missing : List MonthInYear),
        summaryWalk c (b.add i) j days months missing =
          (days + ((monthRange (b.add (i + 1)) j).map MonthInYear.days).sum,
           months + j, missing) := by
  intro j
  induction j with
  | zero =>
      intro i _ _ days months missing
      simp [summaryWalk, monthRange]
  | succ f ih =>
      intro i hi hik days months missing
      have hvi : (b.add i).validMonth := MonthInYear.validMonth_add b i hb
      have hnext : (b.add i).next = b.add (i + 1) := by
        rw [MonthInYear.next_eq_add_one _ hvi, MonthInYear.add_add_valid b hb]
      simp only [summaryWalk]
      rw [hnext, if_pos (hpresent (i + 1) (by omega) (by omega))]
      rw [ih (i + 1) (by omega) (by omega)]
      rw [monthRange_succ_left (b.add (i + 1))
        (MonthInYear.validMonth_add b (i + 1) hb) f]
      rw [MonthInYear.add_add_valid b hb (i + 1) 1]
      simp only [List.map_cons, List.sum_cons, Prod.mk.injEq, and_true]
      refine ⟨by ring, by push_cast; ring⟩

/-- A `Coverage` whose counters record exactly the months
`begin, ..., begin + k = end`, each registered once, passes the
cross-checks of `summary` and reports no missing month. -/
theorem coverage_summary_of_full (c : Coverage) (k : Nat)
    (hb : c.begin_.validMonth)
    (hk : c.end_.diff c.begin_ = (k : Int))
    (hmem : ∀ t : Int, 1 ≤ t → t ≤ (k : Int) →
      (mlookup c.monthly (c.begin_.add t)).isSome = true)
    (hdays : c.days = ((monthRange c.begin_ (k + 1)).map MonthInYear.days).sum)
    (hmonths : c.months = (k : Int) + 1)
    (hlen : c.monthly.length = k + 1) :
    Coverage.summary c = some (CoverageSummary.mk c.domain c.total c.days c.months
      c.begin_ c.end_ none) := by
  have hwalk := summaryWalk_spec c (k : Int) c.begin_ hb hmem k 0 (by norm_num)
    (by norm_num) c.begin_.days 1 []
  rw [MonthInYear.add_zero_valid c.begin_ hb] at hwalk
  have h01 : (0 : Int) + 1 = 1 := by norm_num
  rw [h01] at hwalk
  have hdays2 : c.begin_.days +
      ((monthRange (c.begin_.add 1) k).map MonthInYear.days).sum = c.days := by
    rw [hdays, monthRange_succ_left c.begin_ hb k]
    simp [List.map_cons, List.sum_cons]
  simp only [Coverage.summary]
  rw [hk, Int.toNat_natCast, hwalk]
  rw [if_pos ?hcond]
  case hcond =>
    refine ⟨hdays2, ?_, ?_⟩
    · rw [hmonths]; push_cast; ring
    · rw [hlen]; push_cast; ring
  simp

/-- C4: for every `Coverage` (freshly constructed state: zeroed
counters, `begin = b`, `end = b + k`) whose every month in
`[begin, end]` is registered exactly once — in any order, with arbitrary
per-month row counts — `summary()` succeeds (its internal cross-checks
pass), reports no missing month, months equal to `end - begin + 1`, days
equal to the sum of the calendar day counts of the months in the range
(29 days for February 2020), and requests equal to the sum of the
registered per-month row counts. -/
theorem coverage_summary_gap_free (d : String) (fs : List EnrichedFile)
    (b e : MonthInYear) (k : Nat) (L : List (MonthInYear × Nat))
    (hb : b.validMonth) (he : e.validMonth)
    (hk : e.diff b = (k : Int))
    (hperm : List.Perm (L.map Prod.fst) (monthRange b (k + 1))) :
    (registerAll (Coverage.mk d fs b e 0 0 [] 0) L).bind Coverage.summary =
      some (CoverageSummary.mk d ((L.map Prod.snd).sum)
        (((monthRange b (k + 1)).map MonthInYear.days).sum)
        ((k : Int) + 1) b e none) := by
  have hidx : e.index = b.index + k := by
    have h := MonthInYear.diff_eq_index_sub e b
    omega
  have hinrange : ∀ p ∈ L,
      ((Coverage.mk d fs b e 0 0 [] 0).begin_.leb p.1 &&
        p.1.leb (Coverage.mk d fs b e 0 0 [] 0).end_) = true := by
    intro p hp
    have hmem : p.1 ∈ monthRange b (k + 1) :=
      hperm.mem_iff.mp (List.mem_map_of_mem _ hp)
    simp only [monthRange, List.mem_map, List.mem_range] at hmem
    obtain ⟨i, hik, hpi⟩ := hmem
    show (b.leb p.1 && p.1.leb e) = true
    rw [← hpi, Bool.and_eq_true]
    constructor
    · rw [MonthInYear.leb_iff_index b _ hb (MonthInYear.validMonth_add b _ hb),
        MonthInYear.index_add]
      omega
    · rw [MonthInYear.leb_iff_index _ e (MonthInYear.validMonth_add b _ hb) he,
        MonthInYear.index_add]
      omega
  have hnd : L.Pairwise (fun p q => p.1 ≠ q.1) := by
    have h1 : (L.map Prod.fst).Nodup :=
      hperm.nodup_iff.mpr (monthRange_nodup b (k + 1))
    exact List.pairwise_map.mp h1
  have hlen : L.length = k + 1 := by
    have h1 := hperm.length_eq
    simpa [monthRange] using h1
  have hdaysum : (L.map (fun p => p.1.days)).sum =
      ((monthRange b (k + 1)).map MonthInYear.days).sum := by
    have h2 := (hperm.map MonthInYear.days).sum_eq
    rw [List.map_map] at h2
    exact h2
  rw [registerAll_spec L _ hinrange (fun p _ => rfl) hnd, Option.some_bind]
  have hfull := coverage_summary_of_full
    { Coverage.mk d fs b e 0 0 [] 0 with
      days := 0 + (L.map (fun p => p.1.days)).sum,
      months := 0 + (L.length : Int),
      monthly := [] ++ L,
      total := 0 + (L.map Prod.snd).sum }
    k hb hk
    (by
      intro t h1 h2
      show (mlookup ([] ++ L) (b.add t)).isSome = true
      rw [List.nil_append, mlookup_isSome_iff]
      apply hperm.mem_iff.mpr
      simp only [monthRange, List.mem_map, List.mem_range]
      refine ⟨t.toNat, by omega, ?_⟩
      congr 1
      omega)
    (by
      show (0 : Int) + (L.map (fun p => p.1.days)).sum = _
      rw [zero_add]
      exact hdaysum)
    (by
      show (0 : Int) + (L.length : Int) = (k : Int) + 1
      rw [hlen]
      push_cast
      ring)
    (by
      show ([] ++ L).length = k + 1
      rw [List.nil_append]
      exact hlen)
  rw [hfull]
  show some (CoverageSummary.mk d (0 + (L.map Prod.snd).sum)
      (0 + (L.map (fun p => p.1.days)).sum) (0 + (L.length : Int)) b e none) = _
  rw [zero_add, zero_add, zero_add, hdaysum, hlen]
  push_cast
  ring_nf

/-- Witness for C4: three consecutive months 2020-01..2020-03 (so the
leap February 2020 contributes 29 days and the total is 91), registered
out of order with counts 7, 5, 1. -/
theorem coverage_summary_gap_free_witness :
    (registerAll
        (Coverage.mk "example.com"
          [EnrichedFile.mk "example.com" (MonthInYear.mk 2020 1)]
          (MonthInYear.mk 2020 1) (MonthInYear.mk 2020 3) 0 0 [] 0)
        [(MonthInYear.mk 2020 2, 7), (MonthInYear.mk 2020 1, 5),
         (MonthInYear.mk 2020 3, 1)]).bind Coverage.summary =
      some (CoverageSummary.mk "example.com" 13 91 3
        (MonthInYear.mk 2020 1) (MonthInYear.mk 2020 3) none) := by
  rw [coverage_summary_gap_free "example.com"
    [EnrichedFile.mk "example.com" (MonthInYear.mk 2020 1)]
    (MonthInYear.mk 2020 1) (MonthInYear.mk 2020 3) 2
    [(MonthInYear.mk 2020 2, 7), (MonthInYear.mk 2020 1, 5),
     (MonthInYear.mk 2020 3, 1)]
    (by decide) (by decide) (by decide) (by decide)]
  rfl

/- ====================================================================
   src/analog/data_manager.py — DataManager orchestration
   ==================================================================== -/

/-- Association-list lookup with decidable keys (`dict.get` /
`key in dict`). -/
def alookup {α β : Type} [DecidableEq α] : List (α × β) → α → Option β
  | [], _ => none
  | (k, v) :: rest, key => if key = k then some v else alookup rest key

/-- The storage state one `DataManager` run manipulates, for a single
domain (the access-log directory holds one domain; a second domain makes
`_parse_access_log_name` raise, which no claim exercises).

* `enriched` — the enriched-logs directory: for each month with a
  `domain-yyyy-mm.parquet` file, the rows of that file;
* `masters` — the combined Parquet files in the root, keyed by the
  `(begin, end)` months their `domain-begin-end.parquet` name encodes;
* `covs` — the coverage JSON files `domain-begin-end.json`;
* `didIngest` — `self._did_ingest_access_log`. -/
structure DataManager where
  enriched : List (MonthInYear × List Nat)
  masters : List ((MonthInYear × MonthInYear) × List Nat)
  covs : List (MonthInYear × MonthInYear)
  didIngest : Option Bool

/-- Sort order used for raw access logs (`sorted` by month token). -/
def monthLE (a b : MonthInYear) : Prop := a.leb b = true

instance : DecidableRel monthLE := by
  unfold monthLE; infer_instance

/-- Sort order on enriched files by month key. -/
def monthKeyLE (a b : MonthInYear × List Nat) : Prop := a.1.leb b.1 = true

instance : DecidableRel monthKeyLE := by
  unfold monthKeyLE; infer_instance

/-- One iteration of the `for source_path in source_paths` loop of
`ingest_all_access_logs`: skip the month when its enriched output
exists, otherwise parse and enrich the raw file (`tableOf m` is the
resulting dataframe) and write the new monthly Parquet file. -/
def ingestStep (tableOf : MonthInYear → List Nat)
    (acc : DataManager × List MonthInYear) (m : MonthInYear) :
    DataManager × List MonthInYear :=
  if (alookup acc.1.enriched m).isSome then acc
  else
    ({ acc.1 with enriched := acc.1.enriched ++ [(m, tableOf m)] },
     acc.2 ++ [m])

/-- `DataManager.ingest_all_access_logs`: process the raw monthly files
in chronological order, skipping months whose enriched output already
exists, and record whether any month was ingested.  Returns the updated
state and the months actually ingested. -/
def ingestAllAccessLogs (tableOf : MonthInYear → List Nat)
    (raw : List MonthInYear) (st : DataManager) :
    DataManager × List MonthInYear :=
  let sortedRaw := List.insertionSort monthLE raw
  let res := sortedRaw.foldl (ingestStep tableOf) (st, [])
  ({ res.1 with didIngest := some (!res.2.isEmpty) }, res.2)

/-- The error cases of `combine_monthly_logs`: the `ValueError` for
combining before ingesting, and `Coverage.__init__`'s storage errors
(here only the empty-directory one can fire: the directory is created by
`DataManager.__init__` and the model holds one domain). -/
inductive CombineErr
  | notIngested
  | storage (e : StorageErr)
deriving DecidableEq, Repr

/-- The stale-output cleanup: when a new month was ingested, every root
file matching `name_with_suffix(".*")` — the master Parquet file and the
coverage JSON for the coverage's `(begin, end)` name — is unlinked, and
the flag is reset. -/
def cleanStale (st : DataManager) (key : MonthInYear × MonthInYear) :
    DataManager :=
  { st with
    masters := st.masters.filter (fun p => p.1 ≠ key),
    covs := st.covs.filter (fun p => p ≠ key),
    didIngest := some false }

/-- The tail of `combine_monthly_logs`: if a master file with the
coverage's name exists, load it; otherwise combine all monthly outputs
in month order into one master file and persist it together with the
coverage JSON.  The in-memory and the incremental write strategy produce
the same rows, so both are modelled by the same concatenation. -/
def loadOrCombine (st : DataManager) (key : MonthInYear × MonthInYear)
    (combined : List Nat) : DataManager × List Nat :=
  match alookup st.masters key with
  | some data => (st, data)
  | none =>
      ({ st with
         masters := st.masters ++ [(key, combined)],
         covs := st.covs ++ [key] }, combined)

/-- `DataManager.combine_monthly_logs`. -/
def combineMonthlyLogs (st : DataManager) (_incremental : Bool) :
    Except CombineErr (DataManager × List Nat) :=
  match st.didIngest with
  | none => Except.error CombineErr.notIngested
  | some did =>
      match List.insertionSort monthKeyLE st.enriched with
      | [] => Except.error (CombineErr.storage StorageErr.noEnrichedLogs)
      | first :: rest =>
          let key := (first.1, (rest.getLastD first).1)
          let st1 := if did then cleanStale st key else st
          Except.ok (loadOrCombine st1 key
            (((first :: rest).map Prod.snd).flatten))

theorem foldl_ingestStep_skip (tableOf : MonthInYear → List Nat) :
    ∀ (ms : List MonthInYear) (acc : DataManager × List MonthInYear),
      (∀ m ∈ ms, (alookup acc.1.enriched m).isSome = true) →
      ms.foldl (ingestStep tableOf) acc = acc := by
  intro ms
  induction ms with
  | nil => intro acc _; rfl
  | cons m rest ih =>
      intro acc hall
      have h0 := hall m (by simp)
      simp only [List.foldl_cons, ingestStep, if_pos h0]
      exact ih acc (fun q hq => hall q (List.mem_cons_of_mem _ hq))

/-- C1: re-running ingestion when every raw monthly file already has its
enriched output writes zero new monthly outputs — each existing output
is skipped and the directory is unchanged — and the subsequent
combination step deletes nothing, loads the existing master table, and
leaves master and coverage files unchanged. -/
theorem reingest_idempotent (tableOf : MonthInYear → List Nat)
    (raw : List MonthInYear) (st : DataManager)
    (first : MonthInYear × List Nat) (rest : List (MonthInYear × List Nat))
    (M : List Nat) (inc : Bool)
    (hall : ∀ m ∈ raw, (alookup st.enriched m).isSome = true)
    (hsorted : List.insertionSort monthKeyLE st.enriched = first :: rest)
    (hmaster : alookup st.masters (first.1, (rest.getLastD first).1) = some M) :
    (ingestAllAccessLogs tableOf raw st).2 = [] ∧
    (ingestAllAccessLogs tableOf raw st).1.enriched = st.enriched ∧
    (ingestAllAccessLogs tableOf raw st).1.masters = st.masters ∧
    (ingestAllAccessLogs tableOf raw st).1.covs = st.covs ∧
    (ingestAllAccessLogs tableOf raw st).1.didIngest = some false ∧
    combineMonthlyLogs (ingestAllAccessLogs tableOf raw st).1 inc =
      Except.ok ((ingestAllAccessLogs tableOf raw st).1, M) := by
  have hfold : (List.insertionSort monthLE raw).foldl (ingestStep tableOf)
      (st, []) = (st, []) := by
    apply foldl_ingestStep_skip
    intro m hm
    exact hall m ((List.perm_insertionSort monthLE raw).mem_iff.mp hm)
  have hst2 : ingestAllAccessLogs tableOf raw st =
      ({ st with didIngest := some false }, []) := by
    simp only [ingestAllAccessLogs, hfold]
    rfl
  rw [hst2]
  refine ⟨rfl, rfl, rfl, rfl, rfl, ?_⟩
  show combineMonthlyLogs { st with didIngest := some false } inc = _
  simp only [combineMonthlyLogs]
  rw [show ({ st with didIngest := some false } : DataManager).enriched =
    st.enriched from rfl, hsorted]
  simp only [Bool.false_eq_true, if_false, loadOrCombine]
  rw [hmaster]

/-- A concrete two-month state in which both raw months already have
enriched outputs and the master table for 2023-01..2023-02 exists. -/
def dmWitness : DataManager :=
  ⟨[(MonthInYear.mk 2023 1, [1, 2]), (MonthInYear.mk 2023 2, [3])],
   [((MonthInYear.mk 2023 1, MonthInYear.mk 2023 2), [1, 2, 3])],
   [(MonthInYear.mk 2023 1, MonthInYear.mk 2023 2)],
   none⟩

/-- Witness for C1: re-running the pipeline over `dmWitness` ingests
nothing and the combination step returns the stored master table with
the state unchanged. -/
theorem reingest_idempotent_witness :
    combineMonthlyLogs
        (ingestAllAccessLogs (fun _ => [])
          [MonthInYear.mk 2023 1, MonthInYear.mk 2023 2] dmWitness).1 false =
      Except.ok ((ingestAllAccessLogs (fun _ => [])
          [MonthInYear.mk 2023 1, MonthInYear.mk 2023 2] dmWitness).1,
        [1, 2, 3]) :=
  (reingest_idempotent (fun _ => [])
    [MonthInYear.mk 2023 1, MonthInYear.mk 2023 2] dmWitness
    (MonthInYear.mk 2023 1, [1, 2]) [(MonthInYear.mk 2023 2, [3])]
    [1, 2, 3] false (by decide) (by decide) (by decide)).2.2.2.2.2

/- ====================================================================
   src/analog/label.py — enumerations used by the parser
   ==================================================================== -/

/-- `HttpScheme`. -/
inductive HttpScheme
  | HTTP
  | HTTPS
deriving DecidableEq, Repr

/-- `HttpMethod`. -/
inductive HttpMethod
  | CONNECT
  | DELETE
  | GET
  | HEAD
  | OPTIONS
  | PATCH
  | POST
  | PUT
  | TRACE
deriving DecidableEq, Repr

/-- `HttpMethod[name]` (lookup by member name, raising `KeyError` on a
miss, modelled as `none`). -/
def httpMethodFromName (s : String) : Option HttpMethod :=
  if s = "CONNECT" then some HttpMethod.CONNECT
  else if s = "DELETE" then some HttpMethod.DELETE
  else if s = "GET" then some HttpMethod.GET
  else if s = "HEAD" then some HttpMethod.HEAD
  else if s = "OPTIONS" then some HttpMethod.OPTIONS
  else if s = "PATCH" then some HttpMethod.PATCH
  else if s = "POST" then some HttpMethod.POST
  else if s = "PUT" then some HttpMethod.PUT
  else if s = "TRACE" then some HttpMethod.TRACE
  else none

/-- `HttpProtocol`. -/
inductive HttpProtocol
  | HTTP_09
  | HTTP_10
  | HTTP_11
  | HTTP_20
  | HTTP_30
deriving DecidableEq, Repr

/-- `HttpProtocol(value)` (lookup by value, raising `ValueError` on a
miss, modelled as `none`). -/
def httpProtocolFromValue (s : String) : Option HttpProtocol :=
  if s = "0.9" then some HttpProtocol.HTTP_09
  else if s = "1.0" then some HttpProtocol.HTTP_10
  else if s = "1.1" then some HttpProtocol.HTTP_11
  else if s = "2.0" then some HttpProtocol.HTTP_20
  else if s = "3.0" then some HttpProtocol.HTTP_30
  else none

/-- `HttpStatus`. -/
inductive HttpStatus
  | SUCCESSFUL
  | REDIRECTION
  | CLIENT_ERROR
  | SERVER_ERROR
deriving DecidableEq, Repr

/-- `HttpStatus.of`: bucket a status by numeric range, raising
`ValueError` (modelled as `none`) outside `200..599`. -/
def httpStatusOf (status : Nat) : Option HttpStatus :=
  if 200 ≤ status ∧ status < 300 then some HttpStatus.SUCCESSFUL
  else if 300 ≤ status ∧ status < 400 then some HttpStatus.REDIRECTION
  else if 400 ≤ status ∧ status < 500 then some HttpStatus.CLIENT_ERROR
  else if 500 ≤ status ∧ status < 600 then some HttpStatus.SERVER_ERROR
  else none

/-- `BotCategory`. -/
inductive BotCategory
  | BENCHMARK
  | CONTENT
  | GENERIC
  | MONITORING
  | NONE
  | NETWORKING
  | SEARCH
  | SECURITY
  | SOCIAL
deriving DecidableEq, Repr

/- ====================================================================
   src/analog/parser.py — the `_LINE_PATTERN` grammar
   ==================================================================== -/

/-!
`_LINE_PATTERN` is an anchored regular expression whose pieces are
greedy character-class repetitions, each followed by a delimiter the
class excludes, ordered alternations of literals, and two optional
groups.  On such a pattern a backtracking engine behaves exactly like
the deterministic maximal-munch parsers below; where a bounded
repetition (`\d{1,3}`) could in principle backtrack, every shorter
match leaves the same failing continuation (a digit where a non-digit
is required), so greedy matching capped at the bound is observationally
equal.  `\d` matches on the ASCII digits in all inputs considered here,
and `$` matches at the end of the string or just before one trailing
newline, as in Python.
-/

/-- Match one literal character. -/
def pChar (c : Char) : List Char → Option (List Char)
  | [] => none
  | x :: rest => if x = c then some rest else none

/-- Match a literal character sequence. -/
def pLit : List Char → List Char → Option (List Char)
  | [], cs => some cs
  | _ :: _, [] => none
  | l :: ls, x :: rest => if x = l then pLit ls rest else none

/-- Greedy `[class]*`: split off the maximal prefix of class members. -/
def takeWhileSplit (p : Char → Bool) (cs : List Char) : List Char × List Char :=
  (cs.takeWhile p, cs.dropWhile p)

/-- Greedy `[class]+`. -/
def pPlus (p : Char → Bool) (cs : List Char) : Option (List Char × List Char) :=
  let m := cs.takeWhile p
  if m.isEmpty then none else some (m, cs.dropWhile p)

/-- `\d{1,3}`, maximal munch capped at three digits. -/
def pDigits1to3 : List Char → Option (List Char × List Char)
  | [] => none
  | c1 :: rest1 =>
      if c1.isDigit then
        match rest1 with
        | c2 :: rest2 =>
            if c2.isDigit then
              match rest2 with
              | c3 :: rest3 =>
                  if c3.isDigit then some ([c1, c2, c3], rest3)
                  else some ([c1, c2], rest2)
              | [] => some ([c1, c2], [])
            else some ([c1], rest1)
        | [] => some ([c1], [])
      else none

/-- `_IP_ADDRESS`: `\d{1,3}(?:\.\d{1,3}){3}` — an IPv4 dotted quad. -/
def pIPv4 (cs : List Char) : Option (List Char × List Char) := do
  let (d1, r1) ← pDigits1to3 cs
  let r2 ← pChar '.' r1
  let (d2, r3) ← pDigits1to3 r2
  let r4 ← pChar '.' r3
  let (d3, r5) ← pDigits1to3 r4
  let r6 ← pChar '.' r5
  let (d4, r7) ← pDigits1to3 r6
  pure (d1 ++ '.' :: (d2 ++ '.' :: (d3 ++ '.' :: d4)), r7)

def isHexDigitCh (c : Char) : Bool :=
  c.isDigit || (decide ('a' ≤ c) && decide (c ≤ 'f')) ||
    (decide ('A' ≤ c) && decide (c ≤ 'F'))

/-- The starred body of `_DOUBLE_QUOTED_STRING`
(`\\[bnrtv\\"] | \\x[0-9a-fA-F]{2} | [^\\"]`, tried in that order) up to
and including the closing quote; returns the body without the closing
quote.  Fails on an unterminated string or a bad escape (on those no
earlier stopping point offers a closing quote either). -/
def pQuotedBody : List Char → Option (List Char × List Char)
  | [] => none
  | '"' :: rest => some ([], rest)
  | '\\' :: rest =>
      match rest with
      | [] => none
      | c :: rest2 =>
          if c = 'b' ∨ c = 'n' ∨ c = 'r' ∨ c = 't' ∨ c = 'v' ∨ c = '\\' ∨ c = '"'
          then
            match pQuotedBody rest2 with
            | some (body, r) => some ('\\' :: c :: body, r)
            | none => none
          else if c = 'x' then
            match rest2 with
            | h1 :: h2 :: rest3 =>
                if isHexDigitCh h1 && isHexDigitCh h2 then
                  match pQuotedBody rest3 with
                  | some (body, r) => some ('\\' :: 'x' :: h1 :: h2 :: body, r)
                  | none => none
                else none
            | _ => none
          else none
  | c :: rest =>
      match pQuotedBody rest with
      | some (body, r) => some (c :: body, r)
      | none => none

/-- `_DOUBLE_QUOTED_STRING`; the capture keeps both quotes, as the
regex groups do. -/
def pQuoted (cs : List Char) : Option (List Char × List Char) :=
  match cs with
  | '"' :: rest =>
      match pQuotedBody rest with
      | some (body, r) => some ('"' :: (body ++ ['"']), r)
      | none => none
  | _ => none

def isHostChar (c : Char) : Bool :=
  c.isAlphanum || c = '-'

/-- The `(?:\.[A-Za-z0-9-]+)*` part of `_HOST_NAME` (fuel-driven; each
iteration consumes at least two characters, so `cs.length` fuel always
suffices). -/
def pDotLabels : Nat → List Char → List Char × List Char
  | 0, cs => ([], cs)
  | fuel + 1, cs =>
      match cs with
      | '.' :: rest =>
          match pPlus isHostChar rest with
          | some (lbl, r) =>
              let (more, r2) := pDotLabels fuel r
              ('.' :: (lbl ++ more), r2)
          | none => ([], cs)
      | _ => ([], cs)

/-- `_HOST_NAME`: `[A-Za-z0-9-]+(?:\.[A-Za-z0-9-]+)*\.?(:\d+)?`. -/
def pHostName (cs : List Char) : Option (List Char × List Char) := do
  let (l1, r1) ← pPlus isHostChar cs
  let (ls, r2) := pDotLabels r1.length r1
  let (dot, r3) :=
    match r2 with
    | '.' :: rest => (['.'], rest)
    | _ => ([], r2)
  let (port, r4) :=
    match r3 with
    | ':' :: rest =>
        match pPlus Char.isDigit rest with
        | some (ds, r) => (':' :: ds, r)
        | none => ([], r3)
    | _ => ([], r3)
  pure (l1 ++ ls ++ dot ++ port, r4)

/-- The protocol alternation `0\.9|1\.0|1\.1|2\.0|3\.0`, tried in
order. -/
def pProtocol (cs : List Char) : Option (List Char × List Char) :=
  match pLit ['0', '.', '9'] cs with
  | some r => some (['0', '.', '9'], r)
  | none =>
  match pLit ['1', '.', '0'] cs with
  | some r => some (['1', '.', '0'], r)
  | none =>
  match pLit ['1', '.', '1'] cs with
  | some r => some (['1', '.', '1'], r)
  | none =>
  match pLit ['2', '.', '0'] cs with
  | some r => some (['2', '.', '0'], r)
  | none =>
  match pLit ['3', '.', '0'] cs with
  | some r => some (['3', '.', '0'], r)
  | none => none

/-- `\d{3}`. -/
def pDigits3 : List Char → Option (List Char × List Char)
  | a :: b :: c :: r =>
      if a.isDigit && b.isDigit && c.isDigit then some ([a, b, c], r) else none
  | _ => none

/-- `- | \d+` (the size field), alternatives tried in order. -/
def pSize (cs : List Char) : Option (List Char × List Char) :=
  match cs with
  | '-' :: r => some (['-'], r)
  | _ => pPlus Char.isDigit cs

/-- Python `$` (no MULTILINE): end of string or just before one
trailing newline. -/
def atEnd (cs : List Char) : Bool :=
  cs.isEmpty || cs == ['\n']

/-- The named capturing groups of `_LINE_PATTERN`. -/
structure LineGroups where
  client_address : List Char
  timestamp : List Char
  method : List Char
  path : List Char
  query : Option (List Char)
  fragment : Option (List Char)
  protocol : List Char
  status : List Char
  size : List Char
  referrer : List Char
  user_agent : List Char
  server_name : Option (List Char)
  server_address : Option (List Char)
deriving DecidableEq, Repr

/-- The pattern up to and including the space after the method token:
client address, `- -`, bracketed timestamp, opening quote, method. -/
structure ReqHead where
  client_address : List Char
  timestamp : List Char
  method : List Char
  rest : List Char
deriving DecidableEq, Repr

def matchHead (cs : List Char) : Option ReqHead := do
  let p1 ← pIPv4 cs
  let r2 ← pLit [' ', '-', ' ', '-', ' '] p1.2
  let r3 ← pChar '[' r2
  let p2 ← pPlus (fun c => decide (c ≠ ']')) r3
  let r5 ← pChar ']' p2.2
  let r6 ← pChar ' ' r5
  let r7 ← pChar '"' r6
  let p3 ← pPlus Char.isAlpha r7
  let r9 ← pChar ' ' p3.2
  pure (ReqHead.mk p1.1 p2.1 p3.1 r9)

/-- The request target: `(?P<path> [^?# ]*)`, optional `?query`,
optional `#fragment`.  All three pieces always succeed (the path may be
empty). -/
structure ReqTarget where
  path : List Char
  query : Option (List Char)
  fragment : Option (List Char)
  rest : List Char
deriving DecidableEq, Repr

def matchTarget (r9 : List Char) : ReqTarget :=
  let p4 := takeWhileSplit
    (fun c => decide (c ≠ '?') && decide (c ≠ '#') && decide (c ≠ ' ')) r9
  let p5 :=
    match p4.2 with
    | '?' :: rest =>
        let q := takeWhileSplit
          (fun c => decide (c ≠ '#') && decide (c ≠ ' ')) rest
        (some ('?' :: q.1), q.2)
    | _ => ((none : Option (List Char)), p4.2)
  let p6 :=
    match p5.2 with
    | '#' :: rest =>
        let f := takeWhileSplit (fun c => decide (c ≠ ' ')) rest
        (some ('#' :: f.1), f.2)
    | _ => ((none : Option (List Char)), p5.2)
  ReqTarget.mk p4.1 p5.1 p6.1 p6.2

/-- The pattern from `HTTP/` to the closing quote of the user agent. -/
structure ReqTail where
  protocol : List Char
  status : List Char
  size : List Char
  referrer : List Char
  user_agent : List Char
  rest : List Char
deriving DecidableEq, Repr

def matchTail (r13 : List Char) : Option ReqTail := do
  let r14 ← pLit ['H', 'T', 'T', 'P', '/'] r13
  let p7 ← pProtocol r14
  let r16 ← pChar '"' p7.2
  let r17 ← pChar ' ' r16
  let p8 ← pDigits3 r17
  let r19 ← pChar ' ' p8.2
  let p9 ← pSize r19
  let r21 ← pChar ' ' p9.2
  let p10 ← pQuoted r21
  let r23 ← pChar ' ' p10.2
  let p11 ← pQuoted r23
  pure (ReqTail.mk p7.1 p8.1 p9.1 p10.1 p11.1 p11.2)

/-- The optional trailing `(?: server_name server_address)?` group,
then `$`. -/
def matchSuffix (r24 : List Char) :
    Option (Option (List Char) × Option (List Char)) :=
  if atEnd r24 then some (none, none)
  else
    match pChar ' ' r24 with
    | none => none
    | some r25 =>
        match pHostName r25 with
        | none => none
        | some p12 =>
            match pChar ' ' p12.2 with
            | none => none
            | some r27 =>
                match pIPv4 r27 with
                | none => none
                | some p13 =>
                    if atEnd p13.2 then some (some p12.1, some p13.1) else none

/-- `_LINE_PATTERN.match(line)`. -/
def lineMatch (cs : List Char) : Option LineGroups := do
  let h ← matchHead cs
  let t := matchTarget h.rest
  let r13 ← pChar ' ' t.rest
  let q ← matchTail r13
  let s ← matchSuffix q.rest
  pure (LineGroups.mk h.client_address h.timestamp h.method t.path t.query
    t.fragment q.protocol q.status q.size q.referrer q.user_agent s.1 s.2)

/- ====================================================================
   src/analog/parser.py — field coercion and parse_line
   ==================================================================== -/

/-- `parser.unquote`: `-` and `"-"` become absent; otherwise exactly one
layer of surrounding double quotes is stripped (`quoted[1:-1]`), with no
unescaping. -/
def unquote (s : List Char) : Option (List Char) :=
  if s = ['-'] ∨ s = ['"', '-', '"'] then none
  else some ((s.drop 1).dropLast)

/-- `int(text)` on a digit string. -/
def digitsVal (cs : List Char) : Nat :=
  cs.foldl (fun a c => a * 10 + (c.toNat - 48)) 0

/-- `parser.parse_size`: a dash counts as zero. -/
def parse_size (text : List Char) : Nat :=
  if text = ['-'] then 0 else digitsVal text

/-- `parser.normalize_path`: an empty path becomes `/`. -/
def normalize_path (path : String) : String :=
  if path = "" then "/" else path

/-- `parser.to_cool_path`: strip a trailing `/index.html` or `.html`;
an empty result becomes `/`. -/
def to_cool_path (path : String) : String :=
  let p1 :=
    if path.endsWith "/index.html" then path.dropRight 11
    else if path.endsWith ".html" then path.dropRight 5
    else path
  if p1 = "" then "/" else p1

/-- Days between 1970-01-01 and the given proleptic-Gregorian date
(the standard civil-from-days inverse); all divisions are by positive
constants and the year, read from four digits, is non-negative. -/
def daysFromCivil (y m d : Int) : Int :=
  let y2 := if m ≤ 2 then y - 1 else y
  let era := y2 / 400
  let yoe := y2 - era * 400
  let mp := (m + 9) % 12
  let doy := (153 * mp + 2) / 5 + d - 1
  let doe := yoe * 365 + yoe / 4 - yoe / 100 + doy
  era * 146097 + doe - 719468

/-- Exactly two digits. -/
def pDigits2 : List Char → Option (Nat × List Char)
  | a :: b :: r =>
      if a.isDigit && b.isDigit then some (digitsVal [a, b], r) else none
  | _ => none

/-- Exactly four digits (`%Y`). -/
def pDigits4 : List Char → Option (Nat × List Char)
  | a :: b :: c :: d :: r =>
      if a.isDigit && b.isDigit && c.isDigit && d.isDigit then
        some (digitsVal [a, b, c, d], r)
      else none
  | _ => none

/-- One or two digits, greedy (`%d`, `%H`, `%M`, `%S`). -/
def pDigits1or2 : List Char → Option (Nat × List Char)
  | [] => none
  | a :: rest =>
      if a.isDigit then
        match rest with
        | b :: rest2 =>
            if b.isDigit then some (digitsVal [a, b], rest2)
            else some (digitsVal [a], rest)
        | [] => some (digitsVal [a], [])
      else none

def monthAbbrevs : List (List Char × Nat) :=
  [(['j', 'a', 'n'], 1), (['f', 'e', 'b'], 2), (['m', 'a', 'r'], 3),
   (['a', 'p', 'r'], 4), (['m', 'a', 'y'], 5), (['j', 'u', 'n'], 6),
   (['j', 'u', 'l'], 7), (['a', 'u', 'g'], 8), (['s', 'e', 'p'], 9),
   (['o', 'c', 't'], 10), (['n', 'o', 'v'], 11), (['d', 'e', 'c'], 12)]

/-- `%b`: a C-locale month abbreviation, matched case-insensitively. -/
def pMonthAbbrev (cs : List Char) : Option (Nat × List Char) :=
  let head3 := (cs.take 3).map Char.toLower
  match monthAbbrevs.find? (fun p => p.1 == head3) with
  | some p => if cs.length < 3 then none else some (p.2, cs.drop 3)
  | none => none

/-- `%z`: sign, two digits of hours, optional colon, two digits of
minutes; the result is the offset in seconds. -/
def pOffset (cs : List Char) : Option (Int × List Char) := do
  let (sign, r1) ←
    match cs with
    | '+' :: r => some ((1 : Int), r)
    | '-' :: r => some ((-1 : Int), r)
    | _ => none
  let (oh, r2) ← pDigits2 r1
  let r3 := match r2 with
    | ':' :: r => r
    | _ => r2
  let (om, r4) ← pDigits2 r3
  pure (sign * ((oh : Int) * 3600 + (om : Int) * 60), r4)

/-- The `%d/%b/%Y` prefix of the timestamp format. -/
structure DateDMY where
  d : Nat
  mo : Nat
  y : Nat
  rest : List Char
deriving DecidableEq, Repr

def pDateDMY (cs : List Char) : Option DateDMY := do
  let (d, r1) ← pDigits1or2 cs
  guard (1 ≤ d ∧ d ≤ 31)
  let r2 ← pChar '/' r1
  let (mo, r3) ← pMonthAbbrev r2
  let r4 ← pChar '/' r3
  let (y, r5) ← pDigits4 r4
  pure (DateDMY.mk d mo y r5)

/-- The `:%H:%M:%S` part of the timestamp format. -/
structure ClockHMS where
  h : Nat
  mi : Nat
  s : Nat
  rest : List Char
deriving DecidableEq, Repr

def pClockHMS (cs : List Char) : Option ClockHMS := do
  let r6 ← pChar ':' cs
  let (h, r7) ← pDigits1or2 r6
  guard (h ≤ 23)
  let r8 ← pChar ':' r7
  let (mi, r9) ← pDigits1or2 r8
  guard (mi ≤ 59)
  let r10 ← pChar ':' r9
  let (s, r11) ← pDigits1or2 r10
  guard (s ≤ 59)
  pure (ClockHMS.mk h mi s r11)

/-- `parser.parse_timestamp`: `strptime(text, "%d/%b/%Y:%H:%M:%S %z")`
followed by `astimezone(utc)`.  The field ranges mirror `strptime`'s
regex fragments and the `datetime` constructor's validation (day within
the month, hour below 24, minute and second below 60); the result is the
UTC instant as seconds since the epoch.  `strptime` requires the whole
string to be consumed. -/
def parse_timestamp (cs : List Char) : Option Int := do
  let dt ← pDateDMY cs
  let ck ← pClockHMS dt.rest
  let r12 ← pChar ' ' ck.rest
  let (off, r13) ← pOffset r12
  guard (r13 = [])
  guard ((dt.d : Int) ≤ (MonthInYear.mk (dt.y : Int) (dt.mo : Int)).days)
  pure (daysFromCivil (dt.y : Int) (dt.mo : Int) (dt.d : Int) * 86400 +
    (ck.h : Int) * 3600 + (ck.mi : Int) * 60 + (ck.s : Int) - off)

/-- The named groups of `_REFERRER`. -/
structure RefGroups where
  scheme : HttpScheme
  host : List Char
  path : Option (List Char)
  query : Option (List Char)
  fragment : Option (List Char)
deriving DecidableEq, Repr

/-- `_REFERRER.match`: `^(https?)://([^/?#]*)([^?#]+)?([?][^#]*)?([#].*)?$`.
`.` does not match a newline; `$` as in Python. -/
def refMatch (cs : List Char) : Option RefGroups :=
  match pLit ['h', 't', 't', 'p'] cs with
  | none => none
  | some r1 =>
      let sp :=
        match r1 with
        | 's' :: rest => (HttpScheme.HTTPS, rest)
        | _ => (HttpScheme.HTTP, r1)
      match pLit [':', '/', '/'] sp.2 with
      | none => none
      | some r3 =>
          let hp := takeWhileSplit
            (fun c => decide (c ≠ '/') && decide (c ≠ '?') && decide (c ≠ '#')) r3
          let pp := takeWhileSplit
            (fun c => decide (c ≠ '?') && decide (c ≠ '#')) hp.2
          let path := if pp.1.isEmpty then none else some pp.1
          let qp :=
            match pp.2 with
            | '?' :: rest =>
                let q := takeWhileSplit (fun c => decide (c ≠ '#')) rest
                ((some ('?' :: q.1) : Option (List Char)), q.2)
            | _ => (none, pp.2)
          let fp :=
            match qp.2 with
            | '#' :: rest =>
                let f := takeWhileSplit (fun c => decide (c ≠ '\n')) rest
                ((some ('#' :: f.1) : Option (List Char)), f.2)
            | _ => (none, qp.2)
          if atEnd fp.2 then some (RefGroups.mk sp.1 hp.1 path qp.1 fp.1)
          else none

/-- The quintuple `parser.parse_referrer` returns. -/
structure ReferrerParts where
  scheme : Option HttpScheme
  host : Option (List Char)
  path : Option (List Char)
  query : Option (List Char)
  fragment : Option (List Char)
deriving DecidableEq, Repr

/-- `parser.parse_referrer`: all-absent when the referrer is absent or
does not match `_REFERRER`; the host is lowercased (the scheme, matched
case-sensitively, is already lowercase). -/
def parse_referrer (text : Option (List Char)) : ReferrerParts :=
  match text with
  | none => ReferrerParts.mk none none none none none
  | some cs =>
      match refMatch cs with
      | none => ReferrerParts.mk none none none none none
      | some g =>
          ReferrerParts.mk (some g.scheme) (some (g.host.map Char.toLower))
            g.path g.query g.fragment

/-- The dictionary `parse_line` returns (with derived properties), with
each value coerced as the source coerces it.  The timestamp is the UTC
instant in seconds since the epoch. -/
structure LogRecord where
  client_address : String
  timestamp : Int
  method : HttpMethod
  path : String
  query : Option String
  fragment : Option String
  protocol : HttpProtocol
  status : Nat
  size : Nat
  referrer : Option String
  user_agent : Option String
  server_name : Option String
  server_address : Option String
  content_type : ContentType
  cool_path : String
  referrer_scheme : Option HttpScheme
  referrer_host : Option String
  referrer_path : Option String
  referrer_query : Option String
  referrer_fragment : Option String
  status_class : HttpStatus
deriving DecidableEq, Repr

/-- The three observable outcomes of `parse_line`: the `None` no-match
signal, a raised exception during coercion, or the record. -/
inductive ParseOutcome
  | noMatch
  | error (msg : String)
  | ok (r : LogRecord)
deriving DecidableEq, Repr

/-- `parser.parse_line` (with its default `derrived_props=True`).  The
coercions run in source order; the first raising coercion determines the
exception. -/
def parse_line (line : String) : ParseOutcome :=
  match lineMatch line.data with
  | none => ParseOutcome.noMatch
  | some g =>
      match httpMethodFromName (String.mk (g.method.map Char.toUpper)) with
      | none => ParseOutcome.error "KeyError: unknown HTTP method"
      | some method =>
      match httpProtocolFromValue (String.mk g.protocol) with
      | none => ParseOutcome.error "ValueError: unknown protocol"
      | some protocol =>
      let size := parse_size g.size
      match parse_timestamp g.timestamp with
      | none => ParseOutcome.error "ValueError: malformed timestamp"
      | some timestamp =>
      let user_agent := unquote g.user_agent
      let path := normalize_path (String.mk g.path)
      match ContentType.of path with
      | none => ParseOutcome.error "IndexError"
      | some content_type =>
      let cool_path := to_cool_path path
      let referrer := unquote g.referrer
      let rp := parse_referrer referrer
      let status := digitsVal g.status
      match httpStatusOf status with
      | none => ParseOutcome.error "ValueError: invalid HTTP status"
      | some status_class =>
      let server_name := g.server_name.map
        (fun sn => String.mk (sn.map Char.toLower))
      ParseOutcome.ok (LogRecord.mk
        (String.mk g.client_address) timestamp method path
        (g.query.map String.mk) (g.fragment.map String.mk) protocol status size
        (referrer.map String.mk) (user_agent.map String.mk) server_name
        (g.server_address.map String.mk) content_type cool_path
        rp.scheme (rp.host.map String.mk) (rp.path.map String.mk)
        (rp.query.map String.mk) (rp.fragment.map String.mk) status_class)

/-- The third line of the repository's own parser test data
(`test_parser.py`, `LINES[2]`): its client address is the syntactically
valid IPv6 address `2a06:98c0:3600::103` and the test expects it to
parse into a record. -/
def ipv6TestLine : String :=
  "2a06:98c0:3600::103 - - [10/Jan/2023:14:41:04 -0600] \"GET /assets/fonts/bely-regular.woff2 HTTP/2.0\" 403 1898 \"-\" \"-\" apparebit.com 192.232.251.218"

/-- The first line of the same test data, with an IPv4 client
address. -/
def ipv4TestLine : String :=
  "1.1.1.1 - - [13/Aug/2022:01:02:03 +0000] \"GET / HTTP/2.0\" 204 0 \"-\" \"bot\" s.com 2.2.2.2"

/-- C6, evaluated at the failing input: `_LINE_PATTERN`'s client-address
piece is `\d{1,3}(?:\.\d{1,3}){3}` — IPv4 dotted quads only — so on the
test suite's IPv6 line `parse_line` returns the no-match signal instead
of the extracted field mapping, while the otherwise identical IPv4 line
parses.  This contradicts the spec's grammar ("IPv4/IPv6 client
address") and the repository's own test data. -/
theorem parse_line_ipv6_no_match :
    parse_line ipv6TestLine = ParseOutcome.noMatch ∧
    parse_line ipv4TestLine ≠ ParseOutcome.noMatch := by
  constructor
  · rfl
  · decide

/- ====================================================================
   src/analog/label.py — BotCategory.of;
   src/analog/parser.py — enrich_user_agent
   ==================================================================== -/

/-- `_BOT_CATEGORY_BY_NAME`. -/
def botCategoryByName (s : String) : Option BotCategory :=
  if s = "Amazon Route53 Health Check" then some BotCategory.NETWORKING
  else if s = "Castro 2" then some BotCategory.CONTENT
  else if s = "Let\x27s Encrypt Validation" then some BotCategory.SECURITY
  else if s = "SSL Labs" then some BotCategory.SECURITY
  else none

/-- `_BOT_CATEGORY_BY_LABEL`, flattened as the dict comprehension
produces it. -/
def botCategoryByLabel (s : String) : Option BotCategory :=
  if s = "Benchmark" then some BotCategory.BENCHMARK
  else if s = "Feed Fetcher" then some BotCategory.CONTENT
  else if s = "Feed Parser" then some BotCategory.CONTENT
  else if s = "Feed Reader" then some BotCategory.CONTENT
  else if s = "Read-it-later Service" then some BotCategory.CONTENT
  else if s = "Service Agent" then some BotCategory.CONTENT
  else if s = "Validator" then some BotCategory.CONTENT
  else if s = "Site Monitor" then some BotCategory.MONITORING
  else if s = "Network Monitor" then some BotCategory.NETWORKING
  else if s = "Crawler" then some BotCategory.SEARCH
  else if s = "Search bot" then some BotCategory.SEARCH
  else if s = "Search tools" then some BotCategory.SEARCH
  else if s = "Security Checker" then some BotCategory.SECURITY
  else if s = "Security search bot" then some BotCategory.SECURITY
  else if s = "Social Media Agent" then some BotCategory.SOCIAL
  else if s = "" then some BotCategory.GENERIC
  else none

/-- A bot description from `BotDetector.lookup`: the metadata record of
the first matching signature, of which `BotCategory.of` reads the
`name` and `category` entries. -/
structure BotDesc where
  name : Option String
  category : Option String
deriving DecidableEq, Repr

/-- `BotCategory.of`.  Python's `if name := description.get('name'):`
skips both a missing key and an empty string (falsy); the table values
are all truthy, so the inner `if category := ...` is a plain presence
check. -/
def botCategoryOf (description : Option BotDesc) : BotCategory :=
  match description with
  | none => BotCategory.NONE
  | some desc =>
      let fromName :=
        match desc.name with
        | some name => if name = "" then none else botCategoryByName name
        | none => none
      match fromName with
      | some c => c
      | none =>
          let fromLabel :=
            match desc.category with
            | some label => if label = "" then none else botCategoryByLabel label
            | none => none
          match fromLabel with
          | some c => c
          | none => BotCategory.GENERIC

/-- The result of `ua_parser.user_agent_parser.Parse`: the
`user_agent`, `os`, and `device` sub-dictionaries, with their family
strings and optional version/brand/model components. -/
structure UAParts where
  ua_family : String
  ua_major : Option String
  ua_minor : Option String
  ua_patch : Option String
  ua_patch_minor : Option String
  os_family : String
  os_major : Option String
  os_minor : Option String
  os_patch : Option String
  os_patch_minor : Option String
  device_family : String
  device_brand : Option String
  device_model : Option String

/-- `".".join(v for v in versions if v)`: absent and empty components
are dropped. -/
def joinVersion (vs : List (Option String)) : String :=
  String.intercalate "." ((vs.filterMap id).filter (fun v => decide (v ≠ "")))

/-- The ten values `enrich_user_agent` appends for one row, one per
output column, in source order. -/
structure UARow where
  agent_family : Option String
  agent_version : Option String
  os_family : Option String
  os_version : Option String
  device_family : Option String
  device_brand : Option String
  device_model : Option String
  is_bot : Bool
  bot_category : BotCategory
  is_bot2 : Bool
deriving DecidableEq, Repr

/-- The body of `enrich_user_agent`'s `for user_agent in ...` loop for
one row.  The user-agent parser and the bot-signature lookup are passed
as oracles; the absent branch appends its fixed defaults and `continue`s
without touching either. -/
def enrichUserAgentRow (parseUA : String → UAParts)
    (lookup : String → Option BotDesc) : Option String → UARow
  | none =>
      UARow.mk none none none none none none none false BotCategory.NONE false
  | some user_agent =>
      let parts := parseUA user_agent
      let agent_version := joinVersion
        [parts.ua_major, parts.ua_minor, parts.ua_patch, parts.ua_patch_minor]
      let os_version := joinVersion
        [parts.os_major, parts.os_minor, parts.os_patch, parts.os_patch_minor]
      let is_bot0 := decide (parts.ua_family = "Spider" ∨
        parts.os_family = "Spider" ∨ parts.device_family = "Spider")
      let is_bot := if is_bot0 && decide (parts.ua_family = "WhatsApp") then false
        else is_bot0
      let category := botCategoryOf (lookup user_agent)
      UARow.mk (some parts.ua_family) (some agent_version)
        (some parts.os_family) (some os_version) (some parts.device_family)
        (some (parts.device_brand.getD "")) (some (parts.device_model.getD ""))
        is_bot category (decide (category ≠ BotCategory.NONE))

/-- `parser.enrich_user_agent` over the batch: the source appends one
value per column per row in lockstep, which is the column view of this
row-major map. -/
def enrich_user_agent (parseUA : String → UAParts)
    (lookup : String → Option BotDesc) (uas : List (Option String)) :
    List UARow :=
  uas.map (enrichUserAgentRow parseUA lookup)

/-- C9: every batch row with an absent user agent is enriched to the
fixed deterministic defaults — null agent/OS/device family, version,
brand, and model, `is_bot` false, `bot_category` `NONE`, `is_bot2`
false — and neither the user-agent parser nor the bot-signature lookup
is invoked for that row: the result is the same for every pair of
oracles. -/
theorem enrich_user_agent_absent_defaults
    (parseUA parseUA2 : String → UAParts)
    (lookup lookup2 : String → Option BotDesc)
    (uas : List (Option String)) :
    (∀ i : Nat, uas.get? i = some none →
      (enrich_user_agent parseUA lookup uas).get? i =
        some (UARow.mk none none none none none none none false
          BotCategory.NONE false)) ∧
    enrichUserAgentRow parseUA lookup none =
      enrichUserAgentRow parseUA2 lookup2 none := by
  constructor
  · intro i h
    unfold enrich_user_agent
    rw [List.get?_map, h]
    rfl
  · rfl

/-- Witness for C9: a two-row batch whose first row has no user agent,
with concrete oracles. -/
theorem enrich_user_agent_absent_defaults_witness :
    (enrich_user_agent
        (fun _ => UAParts.mk "Other" none none none none "Other" none none
          none none "Other" none none)
        (fun _ => none) [none, some "Mozilla/5.0"]).get? 0 =
      some (UARow.mk none none none none none none none false
        BotCategory.NONE false) :=
  (enrich_user_agent_absent_defaults
    (fun _ => UAParts.mk "Other" none none none none "Other" none none
      none none "Other" none none)
    (fun _ => UAParts.mk "Other" none none none none "Other" none none
      none none "Other" none none)
    (fun _ => none) (fun _ => none) [none, some "Mozilla/5.0"]).1 0 rfl
